import Mathlib

/-!
Verification of the PMS bin-location mapping and synchronization engine.

The definitions below are a shallow embedding of the repository's core:
the flat item store (`podItems` collection, mongoose model `PodItem`), the
hierarchical pod structure store (`pods` collection, mongoose model `Pod`),
the two location-resolver strategies, the synchronization engine, the bin
layout generators, and the CSV ingestion reconciler.  Document stores are
modelled as Lean lists of records, MongoDB queries as list filters, and
JavaScript truthiness on optional strings explicitly.
-/

namespace PMS

/-- Item status enumeration (`enum: ["available", "missing", "hunting"]`). -/
inductive ItemStatus
  | available
  | missing
  | hunting
deriving DecidableEq, Repr

/-- A flat item-store record (`podItemSchema`).  Dates are modelled as
natural-number timestamps. -/
structure Item where
  sku : String
  uBinId : String
  status : ItemStatus
  quantity : Nat
  asin : Option String
  user : Option String
  lastUpdated : Nat
  createdAt : Nat
  updatedAt : Nat
deriving DecidableEq, Repr

/-- An embedded item-status tuple inside a bin (`itemSchema`). -/
structure EmbeddedItem where
  itemSku : String
  itemStatus : ItemStatus
deriving DecidableEq, Repr

/-- A bin within a face (`binSchema`).  `uBinId` is optional (`sparse`). -/
structure Bin where
  binId : String
  uBinId : Option String
  binItemCount : Nat
  binValidated : Bool
  items : List EmbeddedItem
deriving DecidableEq, Repr

/-- A face of a pod (`podFaceSchema`). -/
structure Face where
  podFace : String
  gcu : String
  faceItemTotal : Nat
  bins : List Bin
deriving DecidableEq, Repr

/-- A pod document (`podSchema`). -/
structure Pod where
  podBarcode : String
  podName : String
  podType : String
  podStatus : String
  podFace : List Face
deriving DecidableEq, Repr

/-- The two document collections the engine reads and writes. -/
structure DB where
  items : List Item
  pods : List Pod
deriving Repr

/-- JavaScript truthiness of an optional string field: `null`/`undefined`
and the empty string are falsy. -/
def optTruthy : Option String → Bool
  | none => false
  | some s => s ≠ ""

/-! ### Computable models of the JavaScript string primitives

Lean's built-in `String.trim`, `String.toLower`, … do not reduce inside the
kernel, so the JS string operations used by the code are modelled directly
on the underlying character lists. -/

/-- Model of JS `String.prototype.trim`: strip leading and trailing
whitespace. -/
def jsTrim (s : String) : String :=
  ⟨((s.data.dropWhile Char.isWhitespace).reverse.dropWhile
      Char.isWhitespace).reverse⟩

/-- Model of JS `String.prototype.toLowerCase` (ASCII letters). -/
def jsToLower (s : String) : String :=
  ⟨s.data.map Char.toLower⟩

/-- Model of JS `String.prototype.toUpperCase` (ASCII letters). -/
def jsToUpper (s : String) : String :=
  ⟨s.data.map Char.toUpper⟩

/-- Model of JS `string.length` (all source data is ASCII). -/
def jsLength (s : String) : Nat :=
  s.data.length

/-- Model of JS `string.includes(c)` for a single character. -/
def jsContainsChar (s : String) (c : Char) : Bool :=
  s.data.contains c

/-- Model of JS `string.split(" ")[0]`: the prefix before the first
space. -/
def jsFirstToken (s : String) : String :=
  ⟨s.data.takeWhile (· ≠ ' ')⟩

/-! ## Ingestion normalization (`itemDataUpdate.js`, `cleanValue` /
`isValidUBinId`) -/

/-- `cleanValue` from `updateItemsFromCSV`: a field value is `null` when,
after trimming, it is empty, exactly `"N/A"`, or `"none"` case-insensitively;
otherwise the trimmed value is kept. -/
def cleanValue (value : String) : Option String :=
  if jsTrim value = "" ∨ jsTrim value = "N/A" ∨
      jsToLower (jsTrim value) = "none" then
    none
  else
    some (jsTrim value)

/-- `isValidUBinId` from `updateItemsFromCSV`: a location key is valid when
it is non-blank, is none of the sentinels `N/A` / `none` / `null` (the last
two case-insensitively) / `0`, and its trimmed length exceeds 3. -/
def isValidUBinId (uBinId : Option String) : Bool :=
  match uBinId with
  | none => false
  | some s =>
    if jsTrim s = "" then false
    else if jsTrim s = "N/A" ∨ jsToLower (jsTrim s) = "none" ∨
        jsToLower (jsTrim s) = "null" ∨ jsTrim s = "0" then false
    else decide (jsLength (jsTrim s) > 3)

/-! ## Bin layout generator (`PodLayout.js`) -/

/-- A row/column configuration from `POD_TYPE_CONFIGS`. -/
structure LayoutConfig where
  rows : Nat
  columns : Nat
deriving DecidableEq, Repr

/-- The fixed `POD_TYPE_CONFIGS` lookup table of `PodLayout.js`. -/
def podTypeConfig (podType podFace : String) : Option LayoutConfig :=
  match podType, podFace with
  | "H8", "A" => some ⟨10, 4⟩
  | "H8", "C" => some ⟨11, 4⟩
  | "H10", "A" => some ⟨12, 4⟩
  | "H10", "C" => some ⟨11, 4⟩
  | "H11", "A" => some ⟨13, 4⟩
  | "H11", "C" => some ⟨12, 4⟩
  | "H12", "A" => some ⟨8, 3⟩
  | "H12", "C" => some ⟨8, 3⟩
  | _, _ => none

/-- `getPodLayout`: validate the pod type and face against the fixed table
(after uppercase normalization); unknown combinations yield `none`
(the `NotFound` result). -/
def getPodLayout (podType podFace : String) : Option LayoutConfig :=
  if podType = "" ∨ podFace = "" then none
  else podTypeConfig (jsToUpper podType) (jsToUpper podFace)

/-- `generateRows`: lowercase row letters `a`, `b`, … in reverse order. -/
def generateRows (rowCount : Nat) : List String :=
  ((List.range rowCount).map
    (fun i => String.singleton (Char.ofNat (97 + i)))).reverse

/-- `generateColumns`: column labels `"1"`, `"2"`, … as strings. -/
def generateColumns (columnCount : Nat) : List String :=
  (List.range columnCount).map (fun i => toString (i + 1))

/-- `generateBinId`: `{faceLetter}_bin_{column}{row}` with the face letter
lowercased. -/
def generateBinId (faceLetter column row : String) : String :=
  jsToLower faceLetter ++ "_bin_" ++ column ++ row

/-- `generateBinDisplayName`: row letter uppercased followed by the column
digits, e.g. `A1`. -/
def generateBinDisplayName (column row : String) : String :=
  jsToUpper row ++ column

/-- One bin descriptor produced by `generatePodGrid`. -/
structure GridBin where
  binId : String
  displayName : String
  row : String
  column : String
  faceLetter : String
deriving DecidableEq, Repr

/-- The grid structure returned by `generatePodGrid`. -/
structure Grid where
  rows : List String
  columns : List String
  bins : List GridBin
  totalBins : Nat
deriving DecidableEq, Repr

/-- `generatePodGrid`: for a valid layout, cross every row with every
column, producing the full bin descriptor list; for an invalid layout,
return the empty grid. -/
def generatePodGrid (podType podFace : String) : Grid :=
  match getPodLayout podType podFace with
  | none => ⟨[], [], [], 0⟩
  | some layout =>
    let rows := generateRows layout.rows
    let columns := generateColumns layout.columns
    let bins := rows.flatMap (fun row =>
      columns.map (fun column =>
        { binId := generateBinId podFace column row
          displayName := generateBinDisplayName column row
          row := row
          column := column
          faceLetter := jsToLower podFace }))
    ⟨rows, columns, bins, bins.length⟩

/-! ## Pod-provisioning bin generator (`generateBinsForFaceId`) -/

/-- The `BIN_LAYOUTS` table keyed by `faceId` strings such as `"H12-A"`;
`rows` is the literal row-letter string of the source. -/
def binLayoutsTable (faceId : String) : Option (String × Nat) :=
  match faceId with
  | "H12-A" => some ("ABCDEFGH", 3)
  | "H12-C" => some ("ABCDEFGH", 3)
  | "H11-A" => some ("ABCDEFGHIJKLM", 4)
  | "H11-C" => some ("ABCDEFGHIJKL", 4)
  | "H10-A" => some ("ABCDEFGHIJKL", 4)
  | "H10-C" => some ("ABCDEFGHIJK", 4)
  | "H8-A" => some ("ABCDEFGHIJ", 4)
  | "H8-C" => some ("ABCDEFGHIJK", 4)
  | _ => none

/-- `generateBinsForFaceId`: for each row letter (in table order) and each
column `1..columns`, emit a fresh bin `{binId := row ++ col, count 0,
unvalidated, no items}`; unknown `faceId` patterns yield `[]`. -/
def generateBinsForFaceId (faceId : String) : List Bin :=
  match binLayoutsTable faceId with
  | none => []
  | some (rows, columns) =>
    rows.data.flatMap (fun row =>
      (List.range columns).map (fun i =>
        { binId := String.singleton row ++ toString (i + 1)
          uBinId := none
          binItemCount := 0
          binValidated := false
          items := [] }))

/-! ## Pod schema validation and save middleware (`podSchema`) -/

/-- The barcode validator of `podSchema`: `HB` followed by 11 digits. -/
def isValidPodBarcode (s : String) : Bool :=
  s.data.length = 13 && s.data.take 2 = ['H', 'B'] &&
    (s.data.drop 2).all Char.isDigit

/-- The `gcu` validator of `podFaceSchema`: one to three digits, optionally
followed by `%`. -/
def isValidGcu (s : String) : Bool :=
  let digits := if s.data.getLast? = some '%' then s.data.dropLast else s.data
  1 ≤ digits.length && digits.length ≤ 3 && digits.all Char.isDigit

/-- Schema validation for one face: face letter in `A`–`D`, valid `gcu`,
at most 52 bins. -/
def validateFace (f : Face) : Bool :=
  (f.podFace = "A" || f.podFace = "B" || f.podFace = "C" || f.podFace = "D") &&
    isValidGcu f.gcu && f.bins.length ≤ 52

/-- Mongoose document validation of `podSchema`: barcode format, type and
status enums, at most four faces with unique letters, and per-face checks. -/
def validatePod (p : Pod) : Bool :=
  isValidPodBarcode p.podBarcode &&
    (p.podType = "H8" || p.podType = "H10" || p.podType = "H11" ||
      p.podType = "H12") &&
    (p.podStatus = "in progress" || p.podStatus = "completed") &&
    p.podFace.length ≤ 4 && (p.podFace.map Face.podFace).Nodup &&
    p.podFace.all validateFace

/-- Per-face step of the `pre('validate')` middleware: append `%` to a
non-empty `gcu` that lacks it. -/
def preValidateFace (f : Face) : Face :=
  if f.gcu ≠ "" && !jsContainsChar f.gcu '%' then
    { f with gcu := f.gcu ++ "%" }
  else f

/-- The `pre('validate')` middleware. -/
def preValidateHook (p : Pod) : Pod :=
  { p with podFace := p.podFace.map preValidateFace }

/-- Per-face step of the `pre('save')` middleware: recompute
`faceItemTotal` as the sum of the bins' `binItemCount`. -/
def preSaveFace (f : Face) : Face :=
  { f with faceItemTotal := (f.bins.map Bin.binItemCount).sum }

/-- The `pre('save')` middleware: recompute every face's `faceItemTotal`
and uppercase the barcode. -/
def preSaveHook (p : Pod) : Pod :=
  { p with
    podFace := p.podFace.map preSaveFace
    podBarcode := jsToUpper p.podBarcode }

/-- `document.save()`: run the validate middleware, validate, then run the
save middleware and persist; a validation failure raises an error. -/
def savePod (p : Pod) : Except String Pod :=
  let p' := preValidateHook p
  if validatePod p' then Except.ok (preSaveHook p') else
    Except.error "Pod validation failed"

/-! ## Synchronization engine (`syncItemsFromPodItemCollection`,
`syncAllPodsWithItems`) -/

/-- Per-bin step of the sync loop: for a bin whose `uBinId` is truthy,
replace the embedded item list with the `(sku, status)` projection of the
item-store records at that `uBinId` and set `binItemCount` to its length;
other bins are untouched. -/
def binSync (items : List Item) (b : Bin) : Bin :=
  match b.uBinId with
  | some u =>
    if u ≠ "" then
      let newItems := (items.filter (fun it => it.uBinId = u)).map
        (fun it => ({ itemSku := it.sku, itemStatus := it.status } :
          EmbeddedItem))
      { b with items := newItems, binItemCount := newItems.length }
    else b
  | none => b

/-- Number of items the sync loop counts for one bin. -/
def binSyncCount (items : List Item) (b : Bin) : Nat :=
  match b.uBinId with
  | some u =>
    if u ≠ "" then (items.filter (fun it => it.uBinId = u)).length else 0
  | none => 0

/-- Per-face step of the sync loop. -/
def syncFace (items : List Item) (f : Face) : Face :=
  { f with bins := f.bins.map (binSync items) }

/-- In-memory result of the face/bin iteration of
`syncItemsFromPodItemCollection` (before any save). -/
def syncCompute (items : List Item) (p : Pod) : Pod :=
  { p with podFace := p.podFace.map (syncFace items) }

/-- `totalItemsSynced` accumulated by the sync loop. -/
def podSyncTotal (items : List Item) (p : Pod) : Nat :=
  (p.podFace.map (fun f => (f.bins.map (binSyncCount items)).sum)).sum

/-- `binsProcessed` accumulated by the sync loop (bins with a truthy
`uBinId`). -/
def podBinsProcessed (p : Pod) : Nat :=
  (p.podFace.map (fun f =>
    (f.bins.filter (fun b => optTruthy b.uBinId)).length)).sum

/-- The summary returned by `syncItemsFromPodItemCollection`. -/
structure SyncStats where
  podBarcode : String
  itemsSynced : Nat
  binsProcessed : Nat
  facesProcessed : Nat
deriving DecidableEq, Repr

/-- `syncItemsFromPodItemCollection` on a stored pod document: refresh every
truthy-`uBinId` bin from the item store, then persist the document only if
at least one item was synchronized.  The returned pod is the document as
persisted (the stored document is unchanged when the save is skipped); a
failed save surfaces as an error wrapping the pod's barcode. -/
def syncItemsFromPodItemCollection (items : List Item) (stored : Pod) :
    Except String (Pod × SyncStats) :=
  let updated := syncCompute items stored
  let total := podSyncTotal items stored
  let stats : SyncStats :=
    { podBarcode := stored.podBarcode
      itemsSynced := total
      binsProcessed := podBinsProcessed stored
      facesProcessed := stored.podFace.length }
  if total > 0 then
    match savePod updated with
    | Except.ok saved => Except.ok (saved, stats)
    | Except.error e =>
      Except.error
        ("Failed to sync items for pod " ++ stored.podBarcode ++ ": " ++ e)
  else
    Except.ok (stored, stats)

/-- The pod document as persisted after one `syncPod` invocation: a failed
save leaves the stored document unchanged. -/
def persistedAfterSync (items : List Item) (stored : Pod) : Pod :=
  match syncItemsFromPodItemCollection items stored with
  | Except.ok (p, _) => p
  | Except.error _ => stored

/-- The summary returned by `syncAllPodsWithItems`. -/
structure SyncAllResult where
  totalPods : Nat
  totalItemsSynced : Nat
  totalErrors : Nat
  errorDetails : List String
deriving DecidableEq, Repr

/-- `syncAllPodsWithItems`: process every stored pod in order; a pod whose
sync fails contributes an `errorDetails` entry `"Pod <barcode>: <error>"`
and leaves its stored document unchanged, and processing continues with the
remaining pods.  Returns the stored pods after the pass and the summary. -/
def syncAllPodsWithItems (items : List Item) :
    List Pod → List Pod × SyncAllResult
  | [] => ([], ⟨0, 0, 0, []⟩)
  | p :: rest =>
    match syncItemsFromPodItemCollection items p with
    | Except.ok (p', stats) =>
      (p' :: (syncAllPodsWithItems items rest).1,
        { totalPods := (syncAllPodsWithItems items rest).2.totalPods + 1
          totalItemsSynced :=
            (syncAllPodsWithItems items rest).2.totalItemsSynced +
              stats.itemsSynced
          totalErrors := (syncAllPodsWithItems items rest).2.totalErrors
          errorDetails := (syncAllPodsWithItems items rest).2.errorDetails })
    | Except.error e =>
      (p :: (syncAllPodsWithItems items rest).1,
        { totalPods := (syncAllPodsWithItems items rest).2.totalPods + 1
          totalItemsSynced :=
            (syncAllPodsWithItems items rest).2.totalItemsSynced
          totalErrors := (syncAllPodsWithItems items rest).2.totalErrors + 1
          errorDetails := ("Pod " ++ p.podBarcode ++ ": " ++ e) ::
            (syncAllPodsWithItems items rest).2.errorDetails })

/-! ## Location resolver (`PodItem` statics `getItemsWithBinMapping` and
`getItemsByPodBarcodeFast`) -/

/-- The minimal pod/face/bin descriptor both strategies attach to an
item. -/
structure BinInfo where
  podBarcode : String
  podName : String
  faceId : String
  binId : String
  uBinId : String
  binItemCount : Nat
deriving DecidableEq, Repr

/-- An item annotated with its (optional) structural location. -/
structure ResolvedItem where
  item : Item
  binInfo : Option BinInfo
deriving DecidableEq, Repr

/-- The filter object accepted by the fast strategy. -/
structure ItemFilters where
  status : Option ItemStatus
  faceId : Option String
  binId : Option String
deriving DecidableEq, Repr

/-- The status conjunct of the item query built by the fast strategy. -/
def statusOk (filters : ItemFilters) (it : Item) : Bool :=
  match filters.status with
  | some s => it.status = s
  | none => true

/-- The descriptor recorded for one bin of a pod. -/
def mkBinInfo (p : Pod) (f : Face) (b : Bin) (u : String) : BinInfo :=
  { podBarcode := p.podBarcode
    podName := p.podName
    faceId := f.podFace
    binId := b.binId
    uBinId := u
    binItemCount := b.binItemCount }

/-- The map entry contributed by one bin: present exactly when its
`uBinId` is truthy. -/
def binEntry (p : Pod) (f : Face) (b : Bin) : Option (String × BinInfo) :=
  match b.uBinId with
  | some u => if u ≠ "" then some (u, mkBinInfo p f b u) else none
  | none => none

/-- The `(uBinId, binInfo)` pairs pushed while walking a pod's faces and
bins (step 2 of `getItemsByPodBarcodeFast`); bins with a falsy `uBinId` are
skipped. -/
def binEntriesOfPod (p : Pod) : List (String × BinInfo) :=
  p.podFace.flatMap (fun f => f.bins.filterMap (binEntry p f))

/-- JS `Map.get` over insertion-order entries: the last `set` for a key
wins. -/
def mapGet (entries : List (String × BinInfo)) (k : String) :
    Option BinInfo :=
  (entries.reverse.find? (fun e => e.1 = k)).map Prod.snd

/-- The `uBinId` `$in` set of the item query built by
`getItemsByPodBarcodeFast`: the pod's collected `uBinId`s, narrowed by the
face filter, then — computed again from the full list — by the bin
filter. -/
def fastAllowedUBinIds (entries : List (String × BinInfo))
    (filters : ItemFilters) : List String :=
  let uBinIds := entries.map Prod.fst
  let afterFace :=
    match filters.faceId with
    | some fid =>
      uBinIds.filter (fun u =>
        match mapGet entries u with
        | some bi => bi.faceId = fid
        | none => false)
    | none => uBinIds
  match filters.binId with
  | some bid =>
    uBinIds.filter (fun u =>
      match mapGet entries u with
      | some bi => bi.binId = bid
      | none => false)
  | none => afterFace

/-- `getItemsByPodBarcodeFast` (the fast strategy, `resolveByPod`): fetch
the pod, collect its `uBinId → binInfo` map, query the item store with an
`$in` filter over the collected (and filter-narrowed) `uBinId` set plus the
status filter, and annotate each returned item from the map. -/
def getItemsByPodBarcodeFast (db : DB) (podBarcode : String)
    (filters : ItemFilters) : List ResolvedItem :=
  match db.pods.find? (fun p => p.podBarcode = podBarcode) with
  | none => []
  | some pod =>
    let entries := binEntriesOfPod pod
    let allowed := fastAllowedUBinIds entries filters
    let found := db.items.filter (fun it =>
      decide (it.uBinId ∈ allowed) && statusOk filters it)
    found.map (fun it => { item := it, binInfo := mapGet entries it.uBinId })

/-- The pod-level `$match` of the join strategy's `$lookup` pipeline: only
pods with some bin carrying a `uBinId` participate. -/
def podHasBinUBinId (p : Pod) : Bool :=
  p.podFace.any (fun f => f.bins.any (fun b => b.uBinId.isSome))

/-- All structural matches for one `uBinId`, in face-then-bin traversal
order across the participating pods (the join strategy's inner
pipeline before its `$limit: 1`). -/
def structuralBinInfos (db : DB) (u : String) : List BinInfo :=
  (db.pods.filter podHasBinUBinId).flatMap (fun p =>
    p.podFace.flatMap (fun f =>
      f.bins.filterMap (fun b =>
        if b.uBinId = some u then some (mkBinInfo p f b u) else none)))

/-- `getItemsWithBinMapping` (the join strategy, `resolveByJoin`): match
items first, then annotate each matched item with its first structural
match (`$limit: 1`), keeping items with no match (`preserveNullAndEmptyArrays`). -/
def getItemsWithBinMapping (db : DB) (query : Item → Bool) :
    List ResolvedItem :=
  (db.items.filter query).map (fun it =>
    { item := it, binInfo := (structuralBinInfos db it.uBinId).head? })

/-- The face part of a pod-scoped structural filter. -/
def faceFilterOk (filters : ItemFilters) (f : Face) : Bool :=
  match filters.faceId with
  | some fid => f.podFace = fid
  | none => true

/-- The bin part of a pod-scoped structural filter. -/
def binFilterOk (filters : ItemFilters) (b : Bin) : Bool :=
  match filters.binId with
  | some bid => b.binId = bid
  | none => true

/-- The (optional) restriction-set entry one bin contributes: its `uBinId`
when that is present and non-empty and the bin passes the structural
filter. -/
def scopedEntry (filters : ItemFilters) (f : Face) (b : Bin) :
    Option String :=
  match b.uBinId with
  | some u =>
    if u ≠ "" && faceFilterOk filters f && binFilterOk filters b then
      some u
    else none
  | none => none

/-- The `uBinId`s occurring in the given pod's bins, narrowed by the
structural (face/bin) part of a pod-scoped filter.  This is the restriction
set of the resolver-equivalence claim, read off the pod document itself. -/
def podScopedUBinIds (db : DB) (podBarcode : String)
    (filters : ItemFilters) : List String :=
  match db.pods.find? (fun p => p.podBarcode = podBarcode) with
  | none => []
  | some pod =>
    pod.podFace.flatMap (fun f => f.bins.filterMap (scopedEntry filters f))

/-- The join strategy's answer for a pod-scoped filter: run the item-side
(status) part of the filter through `getItemsWithBinMapping` and restrict
the result to the `uBinId`s of the pod's (filter-matching) bins. -/
def joinRestricted (db : DB) (podBarcode : String) (filters : ItemFilters) :
    List ResolvedItem :=
  (getItemsWithBinMapping db (statusOk filters)).filter (fun r =>
    decide (r.item.uBinId ∈ podScopedUBinIds db podBarcode filters))

/-- The global key list of all truthy bin `uBinId`s across every stored
pod; the spec's uniqueness invariant states it has no duplicates. -/
def allBinUBinIds (db : DB) : List String :=
  db.pods.flatMap (fun p => (binEntriesOfPod p).map Prod.fst)

/-! ## Ingestion reconciler (`updateItemsFromCSV`) -/

/-- A raw CSV row (string fields as read from the feed). -/
structure RawRow where
  sku : String
  uBinId : String
  podBarcode : String
deriving DecidableEq, Repr

/-- A cleaned CSV row as built in the `.on("data")` handler. -/
structure CsvRow where
  sku : Option String
  uBinId : Option String
  podBarcode : Option String
  hasValidUBinId : Bool
deriving DecidableEq, Repr

/-- The row-cleaning step: normalize each field, truncate a space-bearing
pod barcode to its first token, and precompute location-key validity. -/
def cleanRow (r : RawRow) : CsvRow :=
  let cleanedPodBarcode :=
    match cleanValue r.podBarcode with
    | some s => if jsContainsChar s ' ' then some (jsFirstToken s) else some s
    | none => none
  { sku := cleanValue r.sku
    uBinId := cleanValue r.uBinId
    podBarcode := cleanedPodBarcode
    hasValidUBinId := isValidUBinId (cleanValue r.uBinId) }

/-- The record inserted for a new SKU (default status `available`,
quantity `1`). -/
def newPodItem (sku uBinId : String) (now : Nat) : Item :=
  { sku := sku
    uBinId := uBinId
    status := ItemStatus.available
    quantity := 1
    asin := none
    user := none
    lastUpdated := 0
    createdAt := 0
    updatedAt := now }

/-- `updateOne({sku}, {$set: {uBinId, updatedAt}})`: targeted update of the
first record with the given SKU, touching only the location key and the
timestamp. -/
def updateFirstBySku : List Item → String → String → Nat → List Item
  | [], _, _, _ => []
  | it :: rest, sku, u, now =>
    if it.sku = sku then { it with uBinId := u, updatedAt := now } :: rest
    else it :: updateFirstBySku rest sku u now

/-- The per-row store transition of `updateItemsFromCSV`: skip rows with an
absent SKU; for rows with a valid truthy location key, update the existing
record in place when its key differs, do nothing when it is unchanged, or
insert a fresh record; all other rows leave the store unchanged. -/
def processRow (now : Nat) (store : List Item) (row : CsvRow) : List Item :=
  match row.sku with
  | none => store
  | some sku =>
    if row.hasValidUBinId && optTruthy row.uBinId then
      match row.uBinId with
      | some u =>
        match store.find? (fun it => it.sku = sku) with
        | some existing =>
          if u ≠ existing.uBinId then updateFirstBySku store sku u now
          else store
        | none => store ++ [newPodItem sku u now]
      | none => store
    else store

/-! ## Theorems -/

/-- C8: the ingestion normalization functions satisfy the stated test
vectors; in general a value is null after normalization exactly when, after
trimming, it is empty, equals `N/A`, or equals `none` case-insensitively,
and a location key is valid only when it is not a `null`/`0` sentinel and
has length strictly greater than 3. -/
theorem ingestion_normalization_C8 :
    cleanValue "N/A" = none ∧
    cleanValue " none " = none ∧
    cleanValue "P-6-R326Q053" = some "P-6-R326Q053" ∧
    isValidUBinId (some "0") = false ∧
    isValidUBinId (some "AB") = false ∧
    isValidUBinId (some "P-6-R326Q053") = true ∧
    (∀ s : String, cleanValue s = none ↔
      (jsTrim s = "" ∨ jsTrim s = "N/A" ∨ jsToLower (jsTrim s) = "none")) ∧
    (∀ s : String, isValidUBinId (some s) = true →
      jsToLower (jsTrim s) ≠ "null" ∧ jsTrim s ≠ "0" ∧
        jsLength (jsTrim s) > 3) := by
  refine ⟨by decide, by decide, by decide, by decide, by decide, by decide,
    ?_, ?_⟩
  · intro s
    unfold cleanValue
    split
    · simp_all
    · simp_all
  · intro s h
    by_cases hA : jsTrim s = ""
    · simp [isValidUBinId, hA] at h
    · by_cases hB : jsTrim s = "N/A" ∨ jsToLower (jsTrim s) = "none" ∨
          jsToLower (jsTrim s) = "null" ∨ jsTrim s = "0"
      · simp [isValidUBinId, hA, hB] at h
      · have hB' := hB
        push_neg at hB'
        have h3 : decide (jsLength (jsTrim s) > 3) = true := by
          simpa [isValidUBinId, hA, hB] using h
        exact ⟨hB'.2.2.1, hB'.2.2.2, of_decide_eq_true h3⟩

/-- Closed instance of `ingestion_normalization_C8`: the validity of
`P-6-R326Q053` forces the general necessary conditions there. -/
theorem ingestion_normalization_C8_witness :
    jsToLower (jsTrim "P-6-R326Q053") ≠ "null" ∧
      jsTrim "P-6-R326Q053" ≠ "0" ∧ jsLength (jsTrim "P-6-R326Q053") > 3 :=
  ingestion_normalization_C8.2.2.2.2.2.2.2 "P-6-R326Q053" (by decide)

/-- Auxiliary: the length of a row/column cross product. -/
theorem length_cross {α β γ : Type} (rows : List α) (cols : List β)
    (g : α → β → γ) :
    (rows.flatMap (fun r => cols.map (g r))).length =
      rows.length * cols.length := by
  induction rows with
  | nil => simp
  | cons r t ih => simp [List.flatMap_cons, ih, Nat.succ_mul, Nat.add_comm]

/-- C6: `generateLayout` is deterministic and total over the fixed
(pod type, face) table: a valid pair yields the full (never partial)
layout of `rows × columns` bins, identically on every call, while a pair
missing from the table yields the `NotFound` result and an empty grid. -/
theorem layout_total_deterministic_C6 (podType podFace : String) :
    generatePodGrid podType podFace = generatePodGrid podType podFace ∧
    (∀ cfg, getPodLayout podType podFace = some cfg →
      (generatePodGrid podType podFace).bins.length =
        cfg.rows * cfg.columns ∧
      (generatePodGrid podType podFace).totalBins =
        (generatePodGrid podType podFace).bins.length) ∧
    (getPodLayout podType podFace = none →
      generatePodGrid podType podFace = ⟨[], [], [], 0⟩) := by
  refine ⟨rfl, ?_, ?_⟩
  · intro cfg hcfg
    have hr : (generateRows cfg.rows).length = cfg.rows := by
      simp [generateRows]
    have hc : (generateColumns cfg.columns).length = cfg.columns := by
      simp [generateColumns]
    constructor
    · simp only [generatePodGrid, hcfg]
      rw [length_cross, hr, hc]
    · simp only [generatePodGrid, hcfg]
  · intro hnone
    simp only [generatePodGrid, hnone]

/-- Closed instance of `layout_total_deterministic_C6`: the `H8`/`A`
layout is the full 40-bin grid, and `H12`/`B` is `NotFound` with the empty
grid. -/
theorem layout_total_deterministic_C6_witness :
    (generatePodGrid "H8" "A").bins.length = 10 * 4 ∧
      generatePodGrid "H12" "B" = ⟨[], [], [], 0⟩ :=
  ⟨((layout_total_deterministic_C6 "H8" "A").2.1 ⟨10, 4⟩ (by decide)).1,
    (layout_total_deterministic_C6 "H12" "B").2.2 (by decide)⟩

/-- C7 counterexample: for the pair (`H12`, `A`), valid in both
generators, the UI grid produces the identifier `a_bin_1a` while the
provisioning generator for `H12-A` never produces it, so the two bin
identifier sets are not equal. -/
theorem layout_crossgen_C7_counterexample :
    ¬ ∀ x : String,
        x ∈ (generatePodGrid "H12" "A").bins.map GridBin.binId ↔
          x ∈ (generateBinsForFaceId "H12-A").map Bin.binId := by
  intro h
  have h1 : "a_bin_1a" ∈ (generatePodGrid "H12" "A").bins.map GridBin.binId :=
    by decide
  have h2 : "a_bin_1a" ∉ (generateBinsForFaceId "H12-A").map Bin.binId := by
    decide
  exact h2 ((h "a_bin_1a").mp h1)

/-- The (pod type, face) pairs present in both generators' tables. -/
def validBothPairs : List (String × String) :=
  [("H8", "A"), ("H8", "C"), ("H10", "A"), ("H10", "C"),
    ("H11", "A"), ("H11", "C"), ("H12", "A"), ("H12", "C")]

/-- C7 (amended): for every (pod type, face) pair valid in both generators
the two configurations agree, and the multiset of human-display names
produced by the UI grid (`generatePodGrid`) equals the multiset of bin
identifiers produced by the provisioning generator
(`generateBinsForFaceId`) — but the UI grid's `binId` strings themselves
use the distinct `faceletter_bin_columnrow` format and never coincide. -/
theorem layout_crossgen_C7 (t f : String) (h : (t, f) ∈ validBothPairs) :
    (getPodLayout t f).isSome = true ∧
    (binLayoutsTable (t ++ "-" ++ f)).isSome = true ∧
    ((generatePodGrid t f).bins.map GridBin.displayName).Perm
      ((generateBinsForFaceId (t ++ "-" ++ f)).map Bin.binId) := by
  fin_cases h <;> exact ⟨by decide, by decide, by decide⟩

/-- Closed instance of `layout_crossgen_C7` at (`H12`, `A`). -/
theorem layout_crossgen_C7_witness :
    ((generatePodGrid "H12" "A").bins.map GridBin.displayName).Perm
      ((generateBinsForFaceId ("H12" ++ "-" ++ "A")).map Bin.binId) :=
  (layout_crossgen_C7 "H12" "A" (by decide)).2.2

/-- Fixture for C10: one pod whose faces `A` and `C` both contain a bin
named `b1`, and one item stowed in the face-`C` copy. -/
def c10item : Item :=
  { sku := "SKU-C", uBinId := "U-C-10001", status := ItemStatus.available,
    quantity := 1, asin := none, user := none, lastUpdated := 0,
    createdAt := 0, updatedAt := 0 }

/-- Fixture pod for C10. -/
def c10pod : Pod :=
  { podBarcode := "HB00000000010", podName := "P10", podType := "H8",
    podStatus := "in progress",
    podFace :=
      [{ podFace := "A", gcu := "10%", faceItemTotal := 0,
         bins := [{ binId := "b1", uBinId := some "U-A-10001",
                    binItemCount := 0, binValidated := false, items := [] }] },
       { podFace := "C", gcu := "10%", faceItemTotal := 1,
         bins := [{ binId := "b1", uBinId := some "U-C-10001",
                    binItemCount := 1, binValidated := false,
                    items := [] }] }] }

/-- Fixture database for C10. -/
def c10db : DB := { items := [c10item], pods := [c10pod] }

/-- C10: when both a face filter and a bin filter are supplied to the fast
strategy, the bin filter recomputes the allowed `uBinId` set from the pod's
full bin list, so the face filter is discarded — the query behaves exactly
as if no face filter had been given, and can return items from a face other
than the requested one (here a face-`A` request returns the face-`C`
item). -/
theorem fast_bin_filter_overrides_face_C10 :
    (∀ (db : DB) (podBarcode : String) (st : Option ItemStatus)
        (fid bid : String),
      getItemsByPodBarcodeFast db podBarcode ⟨st, some fid, some bid⟩ =
        getItemsByPodBarcodeFast db podBarcode ⟨st, none, some bid⟩) ∧
    getItemsByPodBarcodeFast c10db "HB00000000010" ⟨none, some "A", some "b1"⟩ =
      [{ item := c10item,
         binInfo := some
           { podBarcode := "HB00000000010", podName := "P10", faceId := "C",
             binId := "b1", uBinId := "U-C-10001", binItemCount := 1 } }] := by
  constructor
  · intro db podBarcode st fid bid
    unfold getItemsByPodBarcodeFast
    cases db.pods.find? (fun p => p.podBarcode = podBarcode) <;> rfl
  · decide

/-- C5: `syncAll` processes every pod independently: the summary's
`totalPods` counts all pods (failed ones included), each stored pod ends up
exactly as its own independent sync would leave it, and the failing pods
each contribute one `errorDetails` entry carrying their barcode — never
aborting the remaining pods. -/
theorem syncAll_isolation_C5 (items : List Item) (pods : List Pod) :
    ((syncAllPodsWithItems items pods).2.totalPods = pods.length) ∧
    ((syncAllPodsWithItems items pods).1.length = pods.length) ∧
    ((syncAllPodsWithItems items pods).1 = pods.map (fun p =>
      match syncItemsFromPodItemCollection items p with
      | Except.ok (p', _) => p'
      | Except.error _ => p)) ∧
    ((syncAllPodsWithItems items pods).2.errorDetails =
      pods.filterMap (fun p =>
        match syncItemsFromPodItemCollection items p with
        | Except.ok _ => none
        | Except.error e => some ("Pod " ++ p.podBarcode ++ ": " ++ e))) ∧
    ((syncAllPodsWithItems items pods).2.totalErrors =
      (syncAllPodsWithItems items pods).2.errorDetails.length) := by
  induction pods with
  | nil => exact ⟨rfl, rfl, rfl, rfl, rfl⟩
  | cons p rest ih =>
    obtain ⟨ih1, ih2, ih3, ih4, ih5⟩ := ih
    cases hp : syncItemsFromPodItemCollection items p with
    | ok r =>
      obtain ⟨p', stats⟩ := r
      refine ⟨?_, ?_, ?_, ?_, ?_⟩ <;>
        simp [syncAllPodsWithItems, hp, ih1, ih2, ih3, ih4, ih5]
    | error e =>
      refine ⟨?_, ?_, ?_, ?_, ?_⟩ <;>
        simp [syncAllPodsWithItems, hp, ih1, ih2, ih3, ih4, ih5]

/-- Auxiliary frame property of the targeted update: the store decomposes
around the first record with the given SKU, and only that record's
`uBinId` and `updatedAt` change. -/
theorem updateFirstBySku_frame (store : List Item) (sku u : String)
    (now : Nat) (existing : Item)
    (h : store.find? (fun it => it.sku = sku) = some existing) :
    ∃ pre post, store = pre ++ existing :: post ∧
      (∀ jt ∈ pre, jt.sku ≠ sku) ∧
      updateFirstBySku store sku u now =
        pre ++ { existing with uBinId := u, updatedAt := now } :: post := by
  induction store with
  | nil => simp at h
  | cons it rest ih =>
    by_cases hsku : it.sku = sku
    · have hit : it = existing := by
        rw [List.find?_cons_of_pos _ (by simpa using hsku)] at h
        exact Option.some.inj h
      subst hit
      refine ⟨[], rest, by simp, by simp, ?_⟩
      simp only [updateFirstBySku, if_pos hsku, List.nil_append]
    · rw [List.find?_cons_of_neg _ (by simpa using hsku)] at h
      obtain ⟨pre, post, hsplit, hpre, hupd⟩ := ih h
      exact ⟨it :: pre, post, by simp [hsplit],
        by simpa [hsku] using hpre, by simp [updateFirstBySku, hsku, hupd]⟩

/-- C9: the per-row reconcile decision: absent stock code → store
unchanged; valid location key and existing record with a different key →
targeted update of only `uBinId` and `updatedAt` on the first matching
record; equal key → no change; no record → append a fresh record with
status `available` and quantity `1`; invalid/absent location key → store
unchanged. -/
theorem ingestion_reconcile_C9 (now : Nat) (store : List Item)
    (row : CsvRow) :
    (row.sku = none → processRow now store row = store) ∧
    (¬ (row.hasValidUBinId && optTruthy row.uBinId) = true →
      processRow now store row = store) ∧
    (∀ sku u existing, row.sku = some sku → row.hasValidUBinId = true →
      row.uBinId = some u → u ≠ "" →
      store.find? (fun it => it.sku = sku) = some existing →
      ((u ≠ existing.uBinId →
        processRow now store row = updateFirstBySku store sku u now ∧
        ∃ pre post, store = pre ++ existing :: post ∧
          (∀ jt ∈ pre, jt.sku ≠ sku) ∧
          processRow now store row =
            pre ++ { existing with uBinId := u, updatedAt := now } :: post) ∧
       (u = existing.uBinId → processRow now store row = store))) ∧
    (∀ sku u, row.sku = some sku → row.hasValidUBinId = true →
      row.uBinId = some u → u ≠ "" →
      store.find? (fun it => it.sku = sku) = none →
      processRow now store row = store ++ [newPodItem sku u now] ∧
      (newPodItem sku u now).status = ItemStatus.available ∧
      (newPodItem sku u now).quantity = 1) := by
  refine ⟨?_, ?_, ?_, ?_⟩
  · intro h
    simp [processRow, h]
  · intro h
    have hg : (row.hasValidUBinId && optTruthy row.uBinId) = false := by
      revert h
      cases row.hasValidUBinId && optTruthy row.uBinId <;> simp
    cases hs : row.sku with
    | none => simp [processRow, hs]
    | some sku => simp [processRow, hs, hg]
  · intro sku u existing hs hv hu hne hfind
    have htru : optTruthy (some u) = true := by simp [optTruthy, hne]
    constructor
    · intro hdiff
      have heq :
          processRow now store row = updateFirstBySku store sku u now := by
        simp [processRow, hs, hu, hv, htru, hfind, hdiff]
      obtain ⟨pre, post, hsplit, hpre, hupd⟩ :=
        updateFirstBySku_frame store sku u now existing hfind
      exact ⟨heq, pre, post, hsplit, hpre, heq.trans hupd⟩
    · intro heq
      simp [processRow, hs, hu, hv, htru, hfind, heq]
  · intro sku u hs hv hu hne hfind
    have htru : optTruthy (some u) = true := by simp [optTruthy, hne]
    exact ⟨by simp [processRow, hs, hu, hv, htru, hfind], rfl, rfl⟩

/-- Closed instance of `ingestion_reconcile_C9`: inserting the spec's
sample row into an empty store yields exactly one `available`/quantity-1
record. -/
theorem ingestion_reconcile_C9_witness :
    processRow 5 []
        { sku := some "SKU1", uBinId := some "P-6-R326Q053",
          podBarcode := some "HB12345678901", hasValidUBinId := true } =
      [] ++ [newPodItem "SKU1" "P-6-R326Q053" 5] ∧
    (newPodItem "SKU1" "P-6-R326Q053" 5).status = ItemStatus.available ∧
    (newPodItem "SKU1" "P-6-R326Q053" 5).quantity = 1 :=
  (ingestion_reconcile_C9 5 []
      { sku := some "SKU1", uBinId := some "P-6-R326Q053",
        podBarcode := some "HB12345678901", hasValidUBinId := true }).2.2.2
    "SKU1" "P-6-R326Q053" rfl rfl rfl (by decide) rfl

/-- `binSync` never changes a bin's `uBinId`. -/
theorem binSync_uBinId (items : List Item) (b : Bin) :
    (binSync items b).uBinId = b.uBinId := by
  cases hb : b.uBinId with
  | none => simp [binSync, hb]
  | some u => by_cases hu : u = "" <;> simp [binSync, hb, hu]

/-- For a truthy-`uBinId` bin, `binSync` installs exactly the item-store
projection and the matching count. -/
theorem binSync_items_eq (items : List Item) (b : Bin) (u : String)
    (hb : b.uBinId = some u) (hu : u ≠ "") :
    (binSync items b).items = (items.filter (fun it => it.uBinId = u)).map
      (fun it => ({ itemSku := it.sku, itemStatus := it.status } :
        EmbeddedItem)) ∧
    (binSync items b).binItemCount = (binSync items b).items.length := by
  constructor <;> simp [binSync, hb, hu]

/-- Re-syncing an already synced bin changes nothing. -/
theorem binSync_idem (items : List Item) (b : Bin) :
    binSync items (binSync items b) = binSync items b := by
  cases hb : b.uBinId with
  | none => simp [binSync, hb]
  | some u =>
    by_cases hu : u = ""
    · simp [binSync, hb, hu]
    · simp [binSync, hb, hu]

/-- The per-bin sync count depends only on the bin's `uBinId`. -/
theorem binSyncCount_congr (items : List Item) {b b' : Bin}
    (h : b'.uBinId = b.uBinId) :
    binSyncCount items b' = binSyncCount items b := by
  unfold binSyncCount
  rw [h]

/-- The face-level middleware and sync steps leave the parts they do not
own untouched. -/
theorem syncFace_bins (items : List Item) (f : Face) :
    (syncFace items f).bins = f.bins.map (binSync items) := rfl

/-- `preValidateFace` only touches `gcu`. -/
theorem preValidateFace_bins (f : Face) : (preValidateFace f).bins = f.bins := by
  unfold preValidateFace
  split <;> rfl

/-- `preSaveFace` only touches `faceItemTotal`. -/
theorem preSaveFace_bins (f : Face) : (preSaveFace f).bins = f.bins := rfl

/-- `preSaveFace` recomputes the face total from the bins. -/
theorem preSaveFace_total (f : Face) :
    (preSaveFace f).faceItemTotal = (f.bins.map Bin.binItemCount).sum := rfl

/-- Elimination of a successful `syncPod` run: the reported `itemsSynced`
is the loop total, and the persisted pod is the hooked sync result when
that total is positive, the untouched stored document otherwise. -/
theorem sync_ok_elim (items : List Item) (stored P' : Pod)
    (stats : SyncStats)
    (hok : syncItemsFromPodItemCollection items stored =
      Except.ok (P', stats)) :
    stats.itemsSynced = podSyncTotal items stored ∧
    (podSyncTotal items stored > 0 →
      P' = preSaveHook (preValidateHook (syncCompute items stored))) ∧
    (¬ podSyncTotal items stored > 0 → P' = stored) := by
  by_cases ht : podSyncTotal items stored > 0
  · unfold syncItemsFromPodItemCollection at hok
    rw [if_pos ht] at hok
    unfold savePod at hok
    by_cases hval : validatePod (preValidateHook (syncCompute items stored))
    · rw [if_pos hval] at hok
      obtain ⟨h1, h2⟩ := Prod.mk.injEq .. ▸ Except.ok.inj hok
      exact ⟨h2 ▸ rfl, fun _ => h1.symm, fun hc => absurd ht hc⟩
    · rw [if_neg hval] at hok
      exact absurd hok (by simp)
  · unfold syncItemsFromPodItemCollection at hok
    rw [if_neg ht] at hok
    obtain ⟨h1, h2⟩ := Prod.mk.injEq .. ▸ Except.ok.inj hok
    exact ⟨h2 ▸ rfl, fun hc => absurd hc ht, fun _ => h1.symm⟩

/-- Fixture for the C2 counterexample: a pod whose only bin still embeds a
stale item while the item store no longer has any record at its
`uBinId`. -/
def c2pod : Pod :=
  { podBarcode := "HB12345678902", podName := "P2", podType := "H8",
    podStatus := "in progress",
    podFace :=
      [{ podFace := "A", gcu := "85%", faceItemTotal := 1,
         bins := [{ binId := "A1", uBinId := some "P-6-R326Q053",
                    binItemCount := 1, binValidated := false,
                    items := [{ itemSku := "SKU-STALE",
                                itemStatus := ItemStatus.available }] }] }] }

/-- C2 counterexample: when every item of a pod has been deleted from the
item store, `syncPod` succeeds with `itemsSynced = 0` and skips the write,
so the persisted document still embeds the stale entry even though the
projection of the item store for that bin is empty — the wholesale
replacement is not persisted. -/
theorem sync_wholesale_replace_C2_counterexample :
    syncItemsFromPodItemCollection [] c2pod =
      Except.ok (c2pod,
        { podBarcode := "HB12345678902", itemsSynced := 0,
          binsProcessed := 1, facesProcessed := 1 }) ∧
    ((persistedAfterSync [] c2pod).podFace.flatMap Face.bins).map Bin.items =
      [[{ itemSku := "SKU-STALE", itemStatus := ItemStatus.available }]] ∧
    (([] : List Item).filter
        (fun it => it.uBinId = "P-6-R326Q053")).map
      (fun it => ({ itemSku := it.sku, itemStatus := it.status } :
        EmbeddedItem)) = [] :=
  ⟨rfl, rfl, rfl⟩

/-- C2 (amended): after a `syncPod` run that synchronized at least one item
(so the document is actually persisted), every bin carrying a non-empty
`uBinId` has its embedded item list equal to exactly the `(sku, status)`
projection of the item-store records at that `uBinId` — replaced wholesale,
never merged. -/
theorem sync_wholesale_replace_C2 (items : List Item) (stored P' : Pod)
    (stats : SyncStats)
    (hok : syncItemsFromPodItemCollection items stored =
      Except.ok (P', stats))
    (hpos : stats.itemsSynced > 0) :
    ∀ f ∈ P'.podFace, ∀ b ∈ f.bins, ∀ u, b.uBinId = some u → u ≠ "" →
      b.items = (items.filter (fun it => it.uBinId = u)).map
        (fun it => ({ itemSku := it.sku, itemStatus := it.status } :
          EmbeddedItem)) := by
  obtain ⟨hstats, hp, -⟩ := sync_ok_elim items stored P' stats hok
  have ht : podSyncTotal items stored > 0 := hstats ▸ hpos
  have hP := hp ht
  subst hP
  intro f hf b hb u hu hune
  simp only [preSaveHook, preValidateHook, syncCompute, List.map_map,
    List.mem_map, Function.comp] at hf
  obtain ⟨f₀, hf₀, rfl⟩ := hf
  rw [preSaveFace_bins, preValidateFace_bins, syncFace_bins] at hb
  obtain ⟨b₀, hb₀, rfl⟩ := List.mem_map.mp hb
  rw [binSync_uBinId] at hu
  cases hub : b₀.uBinId with
  | none => rw [hub] at hu; exact absurd hu (by simp)
  | some v =>
    rw [hub] at hu
    obtain rfl : v = u := Option.some.inj hu
    exact (binSync_items_eq items b₀ v hub hune).1

/-- Fixture item for the C2 witness. -/
def w2item : Item :=
  { sku := "SKU-W2", uBinId := "P-6-R326Q055", status := ItemStatus.available,
    quantity := 1, asin := none, user := none, lastUpdated := 0,
    createdAt := 0, updatedAt := 0 }

/-- Fixture pod for the C2 witness. -/
def w2pod : Pod :=
  { podBarcode := "HB12345678905", podName := "P5", podType := "H8",
    podStatus := "in progress",
    podFace :=
      [{ podFace := "A", gcu := "85%", faceItemTotal := 0,
         bins := [{ binId := "A1", uBinId := some "P-6-R326Q055",
                    binItemCount := 0, binValidated := false,
                    items := [] }] }] }

/-- The synced bin the C2 witness inspects. -/
def w2binS : Bin :=
  { binId := "A1", uBinId := some "P-6-R326Q055", binItemCount := 1,
    binValidated := false,
    items := [{ itemSku := "SKU-W2", itemStatus := ItemStatus.available }] }

/-- The synced face the C2 witness inspects. -/
def w2faceS : Face :=
  { podFace := "A", gcu := "85%", faceItemTotal := 1, bins := [w2binS] }

/-- Closed instance of `sync_wholesale_replace_C2` on a one-item pod. -/
theorem sync_wholesale_replace_C2_witness :
    w2binS.items = ([w2item].filter
        (fun it => it.uBinId = "P-6-R326Q055")).map
      (fun it => ({ itemSku := it.sku, itemStatus := it.status } :
        EmbeddedItem)) :=
  sync_wholesale_replace_C2 [w2item] w2pod
    (persistedAfterSync [w2item] w2pod)
    { podBarcode := "HB12345678905", itemsSynced := 1, binsProcessed := 1,
      facesProcessed := 1 }
    rfl (by decide) w2faceS (by decide) w2binS (by decide)
    "P-6-R326Q055" rfl (by decide)

/-- Fixture item for the C3 counterexample. -/
def c3item : Item :=
  { sku := "SKU-A", uBinId := "P-6-R326Q054", status := ItemStatus.available,
    quantity := 1, asin := none, user := none, lastUpdated := 0,
    createdAt := 0, updatedAt := 0 }

/-- Fixture pod for the C3 counterexample: bin `A1` carries no `uBinId` and
a stale positive count. -/
def c3pod : Pod :=
  { podBarcode := "HB12345678903", podName := "P3", podType := "H8",
    podStatus := "in progress",
    podFace :=
      [{ podFace := "A", gcu := "85%", faceItemTotal := 0,
         bins :=
           [{ binId := "A1", uBinId := none, binItemCount := 1,
              binValidated := false, items := [] },
            { binId := "A2", uBinId := some "P-6-R326Q054",
              binItemCount := 0, binValidated := false, items := [] }] }] }

/-- Second fixture pod for the C3 counterexample: no bin carries a
`uBinId`, so the sync succeeds without persisting anything. -/
def c3podB : Pod :=
  { podBarcode := "HB12345678904", podName := "P4", podType := "H8",
    podStatus := "in progress",
    podFace :=
      [{ podFace := "A", gcu := "85%", faceItemTotal := 7,
         bins := [{ binId := "A1", uBinId := none, binItemCount := 5,
                    binValidated := false, items := [] }] }] }

/-- C3 counterexample: after a successful `syncPod`, a bin without a
`uBinId` keeps its stale `binItemCount` (here `1` against an empty embedded
list), and a zero-item success skips the write entirely, leaving both the
bin counts and the face total (here `7` against a bin sum of `5`) stale in
the persisted document. -/
theorem sync_count_invariant_C3_counterexample :
    syncItemsFromPodItemCollection [c3item] c3pod =
      Except.ok (persistedAfterSync [c3item] c3pod,
        { podBarcode := "HB12345678903", itemsSynced := 1,
          binsProcessed := 1, facesProcessed := 1 }) ∧
    ((persistedAfterSync [c3item] c3pod).podFace.flatMap Face.bins).map
        (fun b => (b.binItemCount, b.items.length)) = [(1, 0), (1, 1)] ∧
    syncItemsFromPodItemCollection [] c3podB =
      Except.ok (c3podB,
        { podBarcode := "HB12345678904", itemsSynced := 0,
          binsProcessed := 0, facesProcessed := 1 }) ∧
    c3podB.podFace.map
        (fun f => (f.faceItemTotal, (f.bins.map Bin.binItemCount).sum)) =
      [(7, 5)] ∧
    (c3podB.podFace.flatMap Face.bins).map
        (fun b => (b.binItemCount, b.items.length)) = [(5, 0)] :=
  ⟨rfl, rfl, rfl, rfl, rfl⟩

/-- C3 (amended): after a `syncPod` run that synchronized at least one item
(so the document is persisted), every bin carrying a non-empty `uBinId` has
`binItemCount` equal to the length of its embedded item list, and every
face has `faceItemTotal` equal to the sum of `binItemCount` over all its
bins. -/
theorem sync_count_invariant_C3 (items : List Item) (stored P' : Pod)
    (stats : SyncStats)
    (hok : syncItemsFromPodItemCollection items stored =
      Except.ok (P', stats))
    (hpos : stats.itemsSynced > 0) :
    (∀ f ∈ P'.podFace, ∀ b ∈ f.bins, optTruthy b.uBinId = true →
      b.binItemCount = b.items.length) ∧
    (∀ f ∈ P'.podFace,
      f.faceItemTotal = (f.bins.map Bin.binItemCount).sum) := by
  obtain ⟨hstats, hp, -⟩ := sync_ok_elim items stored P' stats hok
  have ht : podSyncTotal items stored > 0 := hstats ▸ hpos
  have hP := hp ht
  subst hP
  constructor
  · intro f hf b hb htru
    simp only [preSaveHook, preValidateHook, syncCompute, List.map_map,
      List.mem_map, Function.comp] at hf
    obtain ⟨f₀, hf₀, rfl⟩ := hf
    rw [preSaveFace_bins, preValidateFace_bins, syncFace_bins] at hb
    obtain ⟨b₀, hb₀, rfl⟩ := List.mem_map.mp hb
    rw [show (binSync items b₀).uBinId = b₀.uBinId from
      binSync_uBinId items b₀] at htru
    cases hub : b₀.uBinId with
    | none => rw [hub] at htru; exact absurd htru (by simp [optTruthy])
    | some v =>
      rw [hub] at htru
      have hv : v ≠ "" := by simpa [optTruthy] using htru
      exact (binSync_items_eq items b₀ v hub hv).2
  · intro f hf
    simp only [preSaveHook, preValidateHook, syncCompute, List.map_map,
      List.mem_map, Function.comp] at hf
    obtain ⟨f₀, hf₀, rfl⟩ := hf
    rw [preSaveFace_total, preSaveFace_bins]

/-- Fixture item for the C3 witness. -/
def w3item : Item :=
  { sku := "SKU-W3", uBinId := "P-6-R326Q056", status := ItemStatus.missing,
    quantity := 1, asin := none, user := none, lastUpdated := 0,
    createdAt := 0, updatedAt := 0 }

/-- Fixture pod for the C3 witness. -/
def w3pod : Pod :=
  { podBarcode := "HB12345678906", podName := "P6", podType := "H10",
    podStatus := "completed",
    podFace :=
      [{ podFace := "C", gcu := "40%", faceItemTotal := 0,
         bins := [{ binId := "C1", uBinId := some "P-6-R326Q056",
                    binItemCount := 0, binValidated := false,
                    items := [] }] }] }

/-- The synced face the C3 witness inspects. -/
def w3faceS : Face :=
  { podFace := "C", gcu := "40%", faceItemTotal := 1,
    bins := [{ binId := "C1", uBinId := some "P-6-R326Q056",
               binItemCount := 1, binValidated := false,
               items := [{ itemSku := "SKU-W3",
                           itemStatus := ItemStatus.missing }] }] }

/-- Closed instance of `sync_count_invariant_C3` on a one-item pod. -/
theorem sync_count_invariant_C3_witness :
    w3faceS.faceItemTotal = (w3faceS.bins.map Bin.binItemCount).sum :=
  (sync_count_invariant_C3 [w3item] w3pod
      (persistedAfterSync [w3item] w3pod)
      { podBarcode := "HB12345678906", itemsSynced := 1, binsProcessed := 1,
        facesProcessed := 1 }
      rfl (by decide)).2 w3faceS (by decide)

/-- Appending `%` makes `jsContainsChar · '%'` true. -/
theorem jsContainsChar_append_pct (s : String) :
    jsContainsChar (s ++ "%") '%' = true := by
  unfold jsContainsChar
  rw [String.data_append]
  simp [List.contains_eq_any_beq, List.any_append]

/-- A face that has already been through `preValidateFace` is a fixed point
of it. -/
theorem preValidateFace_idem (f : Face) :
    preValidateFace (preValidateFace f) = preValidateFace f := by
  by_cases h : (f.gcu ≠ "" && !jsContainsChar f.gcu '%') = true
  · have h1 : preValidateFace f = { f with gcu := f.gcu ++ "%" } := by
      unfold preValidateFace
      rw [if_pos h]
    rw [h1]
    unfold preValidateFace
    rw [if_neg (by simp [jsContainsChar_append_pct])]
  · have h1 : preValidateFace f = f := by
      unfold preValidateFace
      rw [if_neg h]
    rw [h1, h1]

/-- Re-syncing an already synced bin list changes nothing. -/
theorem map_binSync_idem (items : List Item) (l : List Bin) :
    (l.map (binSync items)).map (binSync items) = l.map (binSync items) := by
  rw [List.map_map]
  exact List.map_congr_left (fun b _ => binSync_idem items b)

/-- The bins of the per-face sync-save pipeline. -/
theorem pipelineFace_bins (items : List Item) (f : Face) :
    (preSaveFace (preValidateFace (syncFace items f))).bins =
      f.bins.map (binSync items) := by
  rw [preSaveFace_bins, preValidateFace_bins, syncFace_bins]

/-- Component-wise extensionality for faces. -/
theorem faceExt {f g : Face} (h1 : f.podFace = g.podFace)
    (h2 : f.gcu = g.gcu) (h3 : f.faceItemTotal = g.faceItemTotal)
    (h4 : f.bins = g.bins) : f = g := by
  cases f
  cases g
  simp_all

/-- A face whose `gcu` fix-up condition fails is a `preValidateFace` fixed
point. -/
theorem preValidateFace_of_cond_false (g : Face)
    (h : (g.gcu ≠ "" && !jsContainsChar g.gcu '%') = false) :
    preValidateFace g = g := by
  unfold preValidateFace
  rw [if_neg (by rw [h]; simp)]

/-- After one `preValidateFace` pass the fix-up condition never holds
again. -/
theorem preValidateFace_cond_false (y : Face) :
    ((preValidateFace y).gcu ≠ "" &&
      !jsContainsChar (preValidateFace y).gcu '%') = false := by
  unfold preValidateFace
  by_cases h : (y.gcu ≠ "" && !jsContainsChar y.gcu '%') = true
  · rw [if_pos h]
    simp [jsContainsChar_append_pct]
  · rw [if_neg h]
    simpa using h

/-- The per-face sync-save pipeline is idempotent. -/
theorem pipelineFace_idem (items : List Item) (f : Face) :
    preSaveFace (preValidateFace (syncFace items
      (preSaveFace (preValidateFace (syncFace items f))))) =
      preSaveFace (preValidateFace (syncFace items f)) := by
  have hsync : syncFace items (preSaveFace (preValidateFace
      (syncFace items f))) = preSaveFace (preValidateFace
      (syncFace items f)) := by
    refine faceExt rfl rfl rfl ?_
    rw [syncFace_bins, pipelineFace_bins]
    exact map_binSync_idem items f.bins
  rw [hsync]
  have hval : preValidateFace (preSaveFace (preValidateFace
      (syncFace items f))) = preSaveFace (preValidateFace
      (syncFace items f)) := by
    apply preValidateFace_of_cond_false
    exact preValidateFace_cond_false (syncFace items f)
  rw [hval]
  exact rfl

/-- The loop total depends only on the bins' `uBinId`s, which the
pipeline preserves. -/
theorem podSyncTotal_pipeline (items : List Item) (p : Pod) :
    podSyncTotal items
        (preSaveHook (preValidateHook (syncCompute items p))) =
      podSyncTotal items p := by
  unfold podSyncTotal preSaveHook preValidateHook syncCompute
  simp only [List.map_map]
  apply congrArg
  apply List.map_congr_left
  intro f _
  simp only [Function.comp]
  rw [pipelineFace_bins, List.map_map]
  apply congrArg
  apply List.map_congr_left
  intro b _
  exact binSyncCount_congr items (binSync_uBinId items b)

/-- A zero-total sync run returns the stored pod unchanged. -/
theorem persisted_skip (items : List Item) (stored : Pod)
    (h : ¬ podSyncTotal items stored > 0) :
    persistedAfterSync items stored = stored := by
  unfold persistedAfterSync syncItemsFromPodItemCollection
  rw [if_neg h]

/-- A failed save leaves the stored pod unchanged. -/
theorem persisted_failed (items : List Item) (stored : Pod)
    (h : podSyncTotal items stored > 0)
    (hv : validatePod (preValidateHook (syncCompute items stored)) = false) :
    persistedAfterSync items stored = stored := by
  unfold persistedAfterSync syncItemsFromPodItemCollection savePod
  rw [if_pos h, if_neg (by simp [hv])]

/-- A persisted save stores the hooked sync result. -/
theorem persisted_saved (items : List Item) (stored : Pod)
    (h : podSyncTotal items stored > 0)
    (hv : validatePod (preValidateHook (syncCompute items stored)) = true) :
    persistedAfterSync items stored =
      preSaveHook (preValidateHook (syncCompute items stored)) := by
  unfold persistedAfterSync syncItemsFromPodItemCollection savePod
  rw [if_pos h, if_pos hv]

/-- C4: with an unchanged item store, a second `syncPod` run leaves every
bin's embedded item list and every face's `faceItemTotal` exactly as the
first run left them (idempotence up to timestamp refresh). -/
theorem sync_idempotent_C4 (items : List Item) (stored : Pod) :
    ((persistedAfterSync items (persistedAfterSync items stored)).podFace.map
        (fun f => f.bins.map Bin.items) =
      (persistedAfterSync items stored).podFace.map
        (fun f => f.bins.map Bin.items)) ∧
    ((persistedAfterSync items (persistedAfterSync items stored)).podFace.map
        Face.faceItemTotal =
      (persistedAfterSync items stored).podFace.map Face.faceItemTotal) := by
  suffices h : (persistedAfterSync items
      (persistedAfterSync items stored)).podFace =
      (persistedAfterSync items stored).podFace by
    exact ⟨by rw [h], by rw [h]⟩
  by_cases ht : podSyncTotal items stored > 0
  · cases hv : validatePod (preValidateHook (syncCompute items stored)) with
    | false => rw [persisted_failed items stored ht hv,
        persisted_failed items stored ht hv]
    | true =>
      rw [persisted_saved items stored ht hv]
      have ht₂ : podSyncTotal items (preSaveHook (preValidateHook
          (syncCompute items stored))) > 0 := by
        rw [podSyncTotal_pipeline]
        exact ht
      cases hv₂ : validatePod (preValidateHook (syncCompute items
          (preSaveHook (preValidateHook (syncCompute items stored))))) with
      | false => rw [persisted_failed items _ ht₂ hv₂]
      | true =>
        rw [persisted_saved items _ ht₂ hv₂]
        simp only [preSaveHook, preValidateHook, syncCompute, List.map_map]
        apply List.map_congr_left
        intro f _
        simp only [Function.comp]
        exact pipelineFace_idem items f
  · rw [persisted_skip items stored ht, persisted_skip items stored ht]

/-- A member's image is a sublist of the flat-mapped list. -/
theorem sublist_flatMap_of_mem {α β : Type} {l : List α} {x : α}
    (h : x ∈ l) (f : α → List β) : (f x).Sublist (l.flatMap f) := by
  induction l with
  | nil => cases h
  | cons a t ih =>
    rw [List.flatMap_cons]
    rcases List.mem_cons.mp h with rfl | hx
    · exact List.sublist_append_left (f x) (t.flatMap f)
    · exact (ih hx).trans (List.sublist_append_right (f a) (t.flatMap f))

/-- `flatMap` is monotone with respect to sublists. -/
theorem flatMap_sublist {α β : Type} {l₁ l₂ : List α}
    (h : l₁.Sublist l₂) (f : α → List β) :
    (l₁.flatMap f).Sublist (l₂.flatMap f) := by
  induction h with
  | slnil => simp
  | cons a h ih =>
    rw [List.flatMap_cons]
    exact ih.trans (List.sublist_append_right _ _)
  | cons₂ a h ih =>
    rw [List.flatMap_cons, List.flatMap_cons]
    exact ih.append_left _

/-- In a keyed list with duplicate-free keys, `find?` by a member's key
returns exactly that member. -/
theorem find?_key_unique {β : Type} {l : List (String × β)}
    (hnd : (l.map Prod.fst).Nodup) {k : String} {v : β}
    (he : (k, v) ∈ l) :
    l.find? (fun x => x.1 = k) = some (k, v) := by
  induction l with
  | nil => cases he
  | cons a t ih =>
    rcases List.mem_cons.mp he with rfl | ht
    · exact List.find?_cons_of_pos t (by simp)
    · have hne : ¬ a.1 = k := by
        intro hq
        exact (List.nodup_cons.mp hnd).1
          (hq ▸ (by simpa using List.mem_map_of_mem Prod.fst ht))
      rw [List.find?_cons_of_neg t (by simpa using hne)]
      exact ih (List.nodup_cons.mp hnd).2 ht

/-- In a keyed list with duplicate-free keys, filtering by a member's key
yields exactly that member. -/
theorem filter_key_singleton {β : Type} {l : List (String × β)}
    (hnd : (l.map Prod.fst).Nodup) {k : String} {v : β}
    (he : (k, v) ∈ l) :
    l.filter (fun x => x.1 = k) = [(k, v)] := by
  induction l with
  | nil => cases he
  | cons a t ih =>
    rcases List.mem_cons.mp he with rfl | ht
    · rw [List.filter_cons_of_pos (by simp)]
      have hknot : k ∉ t.map Prod.fst := by
        simpa using (List.nodup_cons.mp hnd).1
      have : t.filter (fun x => x.1 = k) = [] := by
        refine List.filter_eq_nil_iff.mpr (fun x hx hpx => ?_)
        have hxk : x.1 = k := of_decide_eq_true hpx
        exact hknot (hxk ▸ List.mem_map_of_mem Prod.fst hx)
      rw [this]
    · have hne : ¬ a.1 = k := by
        intro hq
        exact (List.nodup_cons.mp hnd).1
          (hq ▸ (by simpa using List.mem_map_of_mem Prod.fst ht))
      rw [List.filter_cons_of_neg (by simpa using hne)]
      exact ih (List.nodup_cons.mp hnd).2 ht

/-- A JS-`Map` lookup on duplicate-free keys returns the member's value. -/
theorem mapGet_eq_of_mem {l : List (String × BinInfo)}
    (hnd : (l.map Prod.fst).Nodup) {k : String} {v : BinInfo}
    (he : (k, v) ∈ l) : mapGet l k = some v := by
  unfold mapGet
  have hnd' : (l.reverse.map Prod.fst).Nodup := by
    rw [List.map_reverse]
    exact List.nodup_reverse.mpr hnd
  rw [find?_key_unique hnd' (List.mem_reverse.mpr he)]
  rfl

/-- Characterization of a bin's map entry. -/
theorem binEntry_eq_some {p : Pod} {f : Face} {b : Bin} {u : String}
    {bi : BinInfo} :
    binEntry p f b = some (u, bi) ↔
      b.uBinId = some u ∧ u ≠ "" ∧ bi = mkBinInfo p f b u := by
  unfold binEntry
  cases hb : b.uBinId with
  | none => simp
  | some v =>
    by_cases hv : v = ""
    · subst hv
      simp only [ne_eq, not_true_eq_false, if_false, reduceIte]
      constructor
      · intro h
        cases h
      · rintro ⟨h1, h2, -⟩
        exact absurd (Option.some.inj h1).symm h2
    · simp only [ne_eq, hv, not_false_eq_true, if_true, reduceIte,
        Option.some.injEq, Prod.mk.injEq, Option.some.injEq]
      constructor
      · rintro ⟨rfl, rfl⟩
        exact ⟨rfl, hv, rfl⟩
      · rintro ⟨rfl, -, h3⟩
        exact ⟨rfl, h3.symm⟩

/-- Membership in a pod's collected map entries. -/
theorem mem_binEntriesOfPod {p : Pod} {u : String} {bi : BinInfo} :
    (u, bi) ∈ binEntriesOfPod p ↔
      ∃ f ∈ p.podFace, ∃ b ∈ f.bins,
        b.uBinId = some u ∧ u ≠ "" ∧ bi = mkBinInfo p f b u := by
  unfold binEntriesOfPod
  simp [List.mem_flatMap, List.mem_filterMap, binEntry_eq_some]

/-- Per-bin correspondence between the join pipeline's structural matches
and the fast strategy's map entries, for a non-empty key. -/
theorem structBins_eq (p : Pod) (f : Face) (u : String) (hu : u ≠ "")
    (bs : List Bin) :
    bs.filterMap (fun b =>
        if b.uBinId = some u then some (mkBinInfo p f b u) else none) =
      ((bs.filterMap (binEntry p f)).filter (fun e => e.1 = u)).map
        Prod.snd := by
  induction bs with
  | nil => rfl
  | cons b t ih =>
    rw [List.filterMap_cons, List.filterMap_cons]
    cases hb : b.uBinId with
    | none => simpa [binEntry, hb] using ih
    | some v =>
      by_cases hvu : v = u
      · subst hvu
        simp [binEntry, hb, hu, ih]
      · by_cases hv : v = "" <;>
          simp [binEntry, hb, hv, hvu, Ne.symm hu, ih]

/-- Per-face-list correspondence. -/
theorem structFaces_eq (p : Pod) (u : String) (hu : u ≠ "")
    (fs : List Face) :
    fs.flatMap (fun f => f.bins.filterMap (fun b =>
        if b.uBinId = some u then some (mkBinInfo p f b u) else none)) =
      ((fs.flatMap (fun f => f.bins.filterMap (binEntry p f))).filter
        (fun e => e.1 = u)).map Prod.snd := by
  induction fs with
  | nil => rfl
  | cons f t ih =>
    rw [List.flatMap_cons, List.flatMap_cons, List.filter_append,
      List.map_append, structBins_eq p f u hu f.bins, ih]

/-- The join pipeline's structural matches for a non-empty key are exactly
the values of the participating pods' map entries at that key. -/
theorem structuralBinInfos_eq (db : DB) (u : String) (hu : u ≠ "") :
    structuralBinInfos db u =
      (((db.pods.filter podHasBinUBinId).flatMap binEntriesOfPod).filter
        (fun e => e.1 = u)).map Prod.snd := by
  unfold structuralBinInfos binEntriesOfPod
  generalize db.pods.filter podHasBinUBinId = ps
  induction ps with
  | nil => rfl
  | cons p t ih =>
    rw [List.flatMap_cons, List.flatMap_cons, List.filter_append,
      List.map_append, structFaces_eq p u hu p.podFace, ih]

/-- One pod's map-entry keys inherit duplicate-freedom from the global
uniqueness invariant. -/
theorem entries_keys_nodup_of_mem {db : DB}
    (h1 : (allBinUBinIds db).Nodup) {pod : Pod} (hp : pod ∈ db.pods) :
    ((binEntriesOfPod pod).map Prod.fst).Nodup :=
  List.Nodup.sublist
    (sublist_flatMap_of_mem hp (fun p => (binEntriesOfPod p).map Prod.fst))
    h1

/-- The guarded global entry list inherits duplicate-free keys. -/
theorem gEntries_keys_nodup {db : DB} (h1 : (allBinUBinIds db).Nodup) :
    (((db.pods.filter podHasBinUBinId).flatMap binEntriesOfPod).map
      Prod.fst).Nodup := by
  have hsub : ((((db.pods.filter podHasBinUBinId).flatMap
      binEntriesOfPod).map Prod.fst)).Sublist (allBinUBinIds db) := by
    unfold allBinUBinIds
    rw [List.map_flatMap]
    exact flatMap_sublist (List.filter_sublist db.pods) _
  exact List.Nodup.sublist hsub h1

/-- Under the global uniqueness invariant, the fast strategy's map lookup
and the join strategy's first structural match agree on every key the pod
actually carries. -/
theorem annotation_agree {db : DB} {barcode : String} {pod : Pod}
    (h1 : (allBinUBinIds db).Nodup)
    (hfind : db.pods.find? (fun p => p.podBarcode = barcode) = some pod)
    {x : String} (hx : x ∈ (binEntriesOfPod pod).map Prod.fst) :
    mapGet (binEntriesOfPod pod) x = (structuralBinInfos db x).head? := by
  obtain ⟨e, he, hex⟩ := List.mem_map.mp hx
  obtain ⟨k, bi⟩ := e
  obtain rfl : k = x := hex
  have hpodmem : pod ∈ db.pods := List.mem_of_find?_eq_some hfind
  have hnd : ((binEntriesOfPod pod).map Prod.fst).Nodup :=
    entries_keys_nodup_of_mem h1 hpodmem
  obtain ⟨f, hf, b, hb, hub, hune, hbi⟩ := mem_binEntriesOfPod.mp he
  have hguard : podHasBinUBinId pod = true := by
    unfold podHasBinUBinId
    refine List.any_eq_true.mpr ⟨f, hf, ?_⟩
    exact List.any_eq_true.mpr ⟨b, hb, by simp [hub]⟩
  have hgmem : (k, bi) ∈
      (db.pods.filter podHasBinUBinId).flatMap binEntriesOfPod :=
    List.mem_flatMap.mpr ⟨pod, List.mem_filter.mpr ⟨hpodmem, hguard⟩, he⟩
  have hgnd := gEntries_keys_nodup h1
  rw [mapGet_eq_of_mem hnd he, structuralBinInfos_eq db k hune,
    filter_key_singleton hgnd hgmem]
  rfl

/-- Characterization of one bin's restriction-set entry. -/
theorem scopedEntry_eq_some {filters : ItemFilters} {f : Face} {b : Bin}
    {x : String} :
    scopedEntry filters f b = some x ↔
      b.uBinId = some x ∧ x ≠ "" ∧ faceFilterOk filters f = true ∧
        binFilterOk filters b = true := by
  cases hb : b.uBinId with
  | none => simp [scopedEntry, hb]
  | some v =>
    by_cases hcond :
        (v ≠ "" && faceFilterOk filters f && binFilterOk filters b) = true
    · have h2 := hcond
      simp only [Bool.and_eq_true, decide_eq_true_eq] at h2
      simp only [scopedEntry, hb, if_pos hcond, Option.some.injEq]
      constructor
      · rintro rfl
        exact ⟨rfl, h2.1.1, h2.1.2, h2.2⟩
      · rintro ⟨heq, -, -, -⟩
        exact heq
    · simp only [scopedEntry, hb, if_neg hcond]
      constructor
      · intro h
        cases h
      · rintro ⟨heq, hx, hfo, hbo⟩
        obtain rfl : v = x := Option.some.inj heq
        exact absurd (by simp [hx, hfo, hbo]) hcond

/-- Membership in the pod-scoped restriction set, once the pod has been
found. -/
theorem mem_podScopedUBinIds {db : DB} {barcode : String} {pod : Pod}
    (hfind : db.pods.find? (fun p => p.podBarcode = barcode) = some pod)
    (filters : ItemFilters) (x : String) :
    x ∈ podScopedUBinIds db barcode filters ↔
      ∃ f ∈ pod.podFace, ∃ b ∈ f.bins, b.uBinId = some x ∧ x ≠ "" ∧
        faceFilterOk filters f = true ∧ binFilterOk filters b = true := by
  unfold podScopedUBinIds
  rw [hfind]
  simp [List.mem_flatMap, List.mem_filterMap, scopedEntry_eq_some]

/-- Membership in the fast strategy's allowed `uBinId` set, provided the
face and bin filters are not combined (see C10). -/
theorem mem_fastAllowed {pod : Pod}
    (hnd : ((binEntriesOfPod pod).map Prod.fst).Nodup)
    (filters : ItemFilters)
    (h3 : filters.faceId = none ∨ filters.binId = none) (x : String) :
    x ∈ fastAllowedUBinIds (binEntriesOfPod pod) filters ↔
      ∃ f ∈ pod.podFace, ∃ b ∈ f.bins, b.uBinId = some x ∧ x ≠ "" ∧
        faceFilterOk filters f = true ∧ binFilterOk filters b = true := by
  cases hbid : filters.binId with
  | some bid =>
    have hfid : filters.faceId = none := by
      rcases h3 with hfid | hnone
      · exact hfid
      · rw [hbid] at hnone
        cases hnone
    simp only [fastAllowedUBinIds, hbid]
    constructor
    · intro hx
      obtain ⟨hxkeys, hpred⟩ := List.mem_filter.mp hx
      obtain ⟨e, he, hek⟩ := List.mem_map.mp hxkeys
      obtain ⟨k, bi⟩ := e
      obtain rfl : k = x := hek
      rw [mapGet_eq_of_mem hnd he] at hpred
      obtain ⟨f, hf, b, hb, hub, hune, rfl⟩ := mem_binEntriesOfPod.mp he
      refine ⟨f, hf, b, hb, hub, hune, by simp [faceFilterOk, hfid], ?_⟩
      simp only [binFilterOk, hbid]
      simpa [mkBinInfo] using hpred
    · rintro ⟨f, hf, b, hb, hub, hune, -, hbo⟩
      have he : (x, mkBinInfo pod f b x) ∈ binEntriesOfPod pod :=
        mem_binEntriesOfPod.mpr ⟨f, hf, b, hb, hub, hune, rfl⟩
      refine List.mem_filter.mpr ⟨?_, ?_⟩
      · simpa using List.mem_map_of_mem Prod.fst he
      · rw [mapGet_eq_of_mem hnd he]
        simp only [binFilterOk, hbid] at hbo
        simpa [mkBinInfo] using hbo
  | none =>
    cases hfid : filters.faceId with
    | some fid =>
      simp only [fastAllowedUBinIds, hbid, hfid]
      constructor
      · intro hx
        obtain ⟨hxkeys, hpred⟩ := List.mem_filter.mp hx
        obtain ⟨e, he, hek⟩ := List.mem_map.mp hxkeys
        obtain ⟨k, bi⟩ := e
        obtain rfl : k = x := hek
        rw [mapGet_eq_of_mem hnd he] at hpred
        obtain ⟨f, hf, b, hb, hub, hune, rfl⟩ := mem_binEntriesOfPod.mp he
        refine ⟨f, hf, b, hb, hub, hune, ?_, by simp [binFilterOk, hbid]⟩
        simp only [faceFilterOk, hfid]
        simpa [mkBinInfo] using hpred
      · rintro ⟨f, hf, b, hb, hub, hune, hfo, -⟩
        have he : (x, mkBinInfo pod f b x) ∈ binEntriesOfPod pod :=
          mem_binEntriesOfPod.mpr ⟨f, hf, b, hb, hub, hune, rfl⟩
        refine List.mem_filter.mpr ⟨?_, ?_⟩
        · simpa using List.mem_map_of_mem Prod.fst he
        · rw [mapGet_eq_of_mem hnd he]
          simp only [faceFilterOk, hfid] at hfo
          simpa [mkBinInfo] using hfo
    | none =>
      simp only [fastAllowedUBinIds, hbid, hfid]
      constructor
      · intro hx
        obtain ⟨e, he, hek⟩ := List.mem_map.mp hx
        obtain ⟨k, bi⟩ := e
        obtain rfl : k = x := hek
        obtain ⟨f, hf, b, hb, hub, hune, rfl⟩ := mem_binEntriesOfPod.mp he
        exact ⟨f, hf, b, hb, hub, hune, by simp [faceFilterOk, hfid],
          by simp [binFilterOk, hbid]⟩
      · rintro ⟨f, hf, b, hb, hub, hune, -, -⟩
        have he : (x, mkBinInfo pod f b x) ∈ binEntriesOfPod pod :=
          mem_binEntriesOfPod.mpr ⟨f, hf, b, hb, hub, hune, rfl⟩
        simpa using List.mem_map_of_mem Prod.fst he

/-- C1: under the global `uBinId` uniqueness invariant, for every pod
barcode and every pod-scoped filter by status, face, or bin (face and bin
filters not combined — see C10), the item+location list returned by the
fast strategy equals the join strategy's result for the same status query
restricted to the `uBinId`s of the pod's (filter-matching) bins —
element for element, hence also as a set ignoring order. -/
theorem resolver_equivalence_C1 (db : DB) (barcode : String)
    (filters : ItemFilters)
    (h1 : (allBinUBinIds db).Nodup)
    (h3 : filters.faceId = none ∨ filters.binId = none) :
    getItemsByPodBarcodeFast db barcode filters =
      joinRestricted db barcode filters := by
  cases hfind : db.pods.find? (fun p => p.podBarcode = barcode) with
  | none =>
    unfold joinRestricted getItemsWithBinMapping
    simp only [getItemsByPodBarcodeFast, podScopedUBinIds, hfind]
    simp
  | some pod =>
    have hpodmem : pod ∈ db.pods := List.mem_of_find?_eq_some hfind
    have hnd := entries_keys_nodup_of_mem h1 hpodmem
    have hmemeq : ∀ x : String,
        x ∈ fastAllowedUBinIds (binEntriesOfPod pod) filters ↔
          x ∈ podScopedUBinIds db barcode filters := fun x =>
      (mem_fastAllowed hnd filters h3 x).trans
        (mem_podScopedUBinIds hfind filters x).symm
    unfold joinRestricted getItemsWithBinMapping
    simp only [getItemsByPodBarcodeFast, hfind]
    rw [List.filter_map, List.filter_filter]
    have hpred : ∀ it ∈ db.items,
        (decide (it.uBinId ∈ fastAllowedUBinIds (binEntriesOfPod pod)
            filters) && statusOk filters it) =
        (((fun r : ResolvedItem =>
            decide (r.item.uBinId ∈ podScopedUBinIds db barcode filters)) ∘
          (fun it : Item =>
            ({ item := it,
               binInfo := (structuralBinInfos db it.uBinId).head? } :
              ResolvedItem))) it && statusOk filters it) := by
      intro it _
      simp only [Function.comp]
      rw [decide_eq_decide.mpr (hmemeq it.uBinId)]
    rw [List.filter_congr hpred]
    refine List.map_congr_left (fun it hit => ?_)
    obtain ⟨-, hp⟩ := List.mem_filter.mp hit
    simp only [Function.comp, Bool.and_eq_true, decide_eq_true_eq] at hp
    have hxS : it.uBinId ∈ podScopedUBinIds db barcode filters := hp.1
    have hxA : it.uBinId ∈ fastAllowedUBinIds (binEntriesOfPod pod)
        filters := (hmemeq it.uBinId).mpr hxS
    have hxkeys : it.uBinId ∈ (binEntriesOfPod pod).map Prod.fst := by
      obtain ⟨f, hf, b, hb, hub, hune, -, -⟩ :=
        (mem_podScopedUBinIds hfind filters it.uBinId).mp hxS
      have he : (it.uBinId, mkBinInfo pod f b it.uBinId) ∈
          binEntriesOfPod pod :=
        mem_binEntriesOfPod.mpr ⟨f, hf, b, hb, hub, hune, rfl⟩
      simpa using List.mem_map_of_mem Prod.fst he
    have hag := annotation_agree h1 hfind hxkeys
    simp only [ResolvedItem.mk.injEq]
    exact ⟨trivial, hag⟩

/-- Fixture item for the C1 witness. -/
def w1item : Item :=
  { sku := "SKU-W1", uBinId := "P-6-R326Q057", status := ItemStatus.hunting,
    quantity := 2, asin := some "B00TEST", user := none, lastUpdated := 3,
    createdAt := 1, updatedAt := 2 }

/-- Second fixture item (outside the pod) for the C1 witness. -/
def w1itemOut : Item :=
  { sku := "SKU-W1B", uBinId := "P-6-R326Q058",
    status := ItemStatus.hunting, quantity := 1, asin := none, user := none,
    lastUpdated := 0, createdAt := 0, updatedAt := 0 }

/-- Fixture pod for the C1 witness. -/
def w1pod : Pod :=
  { podBarcode := "HB12345678907", podName := "P7", podType := "H11",
    podStatus := "in progress",
    podFace :=
      [{ podFace := "A", gcu := "50%", faceItemTotal := 1,
         bins := [{ binId := "a_bin_1a", uBinId := some "P-6-R326Q057",
                    binItemCount := 1, binValidated := false,
                    items := [] }] }] }

/-- Fixture database for the C1 witness. -/
def w1db : DB := { items := [w1item, w1itemOut], pods := [w1pod] }

/-- Closed instance of `resolver_equivalence_C1` on a two-item store with a
status filter. -/
theorem resolver_equivalence_C1_witness :
    getItemsByPodBarcodeFast w1db "HB12345678907"
        ⟨some ItemStatus.hunting, none, none⟩ =
      joinRestricted w1db "HB12345678907"
        ⟨some ItemStatus.hunting, none, none⟩ :=
  resolver_equivalence_C1 w1db "HB12345678907"
    ⟨some ItemStatus.hunting, none, none⟩ (by decide) (Or.inl rfl)

end PMS
